/-
Verification of the task-orchestration and provisioning logic of the
gemini-business2api repository.

The definitions below are a shallow embedding of the Python sources:
  * core/register_service.py   (start_register, _run_register_async)
  * core/gemini_automation_patchright.py
        (login_and_extract, _run_flow step 2 and step 5, _extract_config)
  * core/gptmail_client.py     (fetch_verification_code, poll_for_code)
  * core/moemail_client.py     (fetch_verification_code, poll_for_code)

Machine-level effects (HTTP, the browser, sleeping, logging) are abstracted
into explicit parameters: the outcome of each provisioning attempt, the
result of each mailbox fetch, the wall-clock reading at each point where the
code calls time.time() / datetime.now(), and the truth value of the
cancellation flag at each point where the loop reads it.  The control flow,
the state updates and the arithmetic are translated line by line.
-/
import Mathlib

/-! ### Task state (Job data model)

Modelled from the spec: core/base_task_service.py is not part of the
sources; the Job record (progress counter, ordered result list, success and
failure counters, status enum, cancellation flag, finish timestamp) and the
status enum PENDING/RUNNING/SUCCESS/FAILED/CANCELLED follow section 3 of the
spec and the fields used by core/register_service.py. -/

inductive TaskStatus : Type
  | pending
  | running
  | success
  | failed
  | cancelled
  deriving DecidableEq, Repr

/-- One entry of `task.results`: the dictionary produced for one attempt,
with the keys the orchestrator reads (`success`, `error`, `email`). -/
structure RegResult : Type where
  success : Bool
  error : Option String
  email : Option String
  deriving DecidableEq, Repr

/-- How one call of `self._register_one` (one provisioning attempt) can end,
as seen by the `try` block of `_run_register_async`: it returns a result
dictionary, raises `TaskCancelledError`, or raises some other exception. -/
inductive AttemptOutcome : Type
  | ok (r : RegResult)
  | taskCancelled
  | exn (msg : String)
  deriving DecidableEq, Repr

/-- The mutable fields of a `RegisterTask` that `_run_register_async`
touches. -/
structure TaskState : Type where
  count : Nat
  progress : Nat
  results : List RegResult
  success_count : Nat
  fail_count : Nat
  status : TaskStatus
  finished_at : Option Nat
  deriving DecidableEq, Repr

/-- The result dictionary recorded for a non-cancelling outcome: the
returned dictionary itself, or, for `except Exception as exc`, the
dictionary with success False and error str(exc)
(register_service.py line 109).  `taskCancelled` never reaches this point;
its value here is irrelevant. -/
def resultOf : AttemptOutcome → RegResult
  | .ok r => r
  | .exn msg => ⟨false, some msg, none⟩
  | .taskCancelled => ⟨false, none, none⟩

/-- Lines 110-120 of register_service.py: bump progress, append the result,
bump the matching counter. -/
def recordResult (st : TaskState) (r : RegResult) : TaskState :=
  { st with
    progress := st.progress + 1
    results := st.results ++ [r]
    success_count := if r.success then st.success_count + 1 else st.success_count
    fail_count := if r.success then st.fail_count else st.fail_count + 1 }

/-- Lines 96-99 / 104-107 of register_service.py: mark the task CANCELLED
and stamp `finished_at` with the current time. -/
def markCancelled (st : TaskState) (now : Nat) : TaskState :=
  { st with status := TaskStatus.cancelled, finished_at := some now }

/-- Lines 134-138 of register_service.py, after the loop: CANCELLED if the
flag is set, otherwise SUCCESS when no attempt failed and FAILED when one
did; stamp `finished_at`. -/
def finishTask (st : TaskState) (cancelNow : Bool) (now : Nat) : TaskState :=
  { st with
    status :=
      if cancelNow then TaskStatus.cancelled
      else if st.fail_count = 0 then TaskStatus.success
      else TaskStatus.failed
    finished_at := some now }

/-- The `for idx in range(task.count)` loop of `_run_register_async`.
`outcomes i` is how attempt `i` ends, `cancel i` is the value of
`task.cancel_requested` when it is read after `i` attempts have completed,
`now` abstracts `time.time()`, `n` is the number of iterations left and
`idx` the next index.  The inter-attempt sleep (lines 123-132) changes no
task state and is omitted. -/
def runLoop (outcomes : Nat → AttemptOutcome) (cancel : Nat → Bool) (now : Nat) :
    Nat → Nat → TaskState → TaskState
  | 0, idx, st => finishTask st (cancel idx) now
  | n + 1, idx, st =>
    if cancel idx then markCancelled st now
    else
      match outcomes idx with
      | .taskCancelled => markCancelled st now
      | .ok r => runLoop outcomes cancel now n (idx + 1) (recordResult st r)
      | .exn msg =>
          runLoop outcomes cancel now n (idx + 1) (recordResult st ⟨false, some msg, none⟩)

/-- The task state a `RegisterTask` is in when `_run_register_async` starts
running it: empty results, zero counters, status RUNNING. -/
def initTaskState (count : Nat) : TaskState :=
  { count := count, progress := 0, results := [], success_count := 0
    fail_count := 0, status := TaskStatus.running, finished_at := none }

/-- `_run_register_async` on a task with `count` attempts. -/
def run_register (count : Nat) (outcomes : Nat → AttemptOutcome)
    (cancel : Nat → Bool) (now : Nat) : TaskState :=
  runLoop outcomes cancel now count 0 (initTaskState count)

/-- Recording the results of attempts `idx, idx+1, ..., idx+n-1` in order. -/
def recordAll (outcomes : Nat → AttemptOutcome) (idx n : Nat) (st : TaskState) : TaskState :=
  (List.range' idx n).foldl (fun s i => recordResult s (resultOf (outcomes i))) st

/-! ### String scanning

Python's substring and split idioms (`pat in s`, `s.split(sep)[1]`,
`s.split(sep)[0]`, `s.strip()`), embedded as structural recursion over the
character list of the string so that they evaluate inside the kernel. -/

/-- Does `pat` occur at the head of `s`? -/
def charsMatchAt : List Char → List Char → Bool
  | _, [] => true
  | [], _ :: _ => false
  | a :: s, b :: p => a == b && charsMatchAt s p

/-- Does `pat` occur anywhere in `s`?  (Python `pat in s`.) -/
def charsHaveSub : List Char → List Char → Bool
  | s, pat =>
    if charsMatchAt s pat then true
    else
      match s with
      | [] => false
      | _ :: rest => charsHaveSub rest pat

/-- Python `pat in s` on strings. -/
def containsSub (s pat : String) : Bool := charsHaveSub s.data pat.data

/-- The portion of `s` before the first occurrence of `pat` (all of `s` if
`pat` does not occur): Python `s.split(pat)[0]`. -/
def charsUpTo : List Char → List Char → List Char
  | s, pat =>
    if charsMatchAt s pat then []
    else
      match s with
      | [] => []
      | c :: rest => c :: charsUpTo rest pat

/-- The portion of `s` after the first occurrence of `pat`, when `pat`
occurs. -/
def charsAfterFirst : List Char → List Char → Option (List Char)
  | s, pat =>
    if charsMatchAt s pat then some (s.drop pat.length)
    else
      match s with
      | [] => none
      | _ :: rest => charsAfterFirst rest pat

/-- Python `s.split(pat)[1]` for a `pat` known to occur: the text between
the first occurrence of `pat` and the following occurrence (or the end of
the string). -/
def splitSecond (s pat : String) : String :=
  ⟨charsUpTo ((charsAfterFirst s.data pat.data).getD []) pat.data⟩

/-- Python `s.split(pat)[0]`. -/
def splitFirst (s pat : String) : String :=
  ⟨charsUpTo s.data pat.data⟩

/-- The whitespace set Python's `str.strip()` removes (the characters that
can actually appear around the config values here). -/
def isSpaceChar (c : Char) : Bool :=
  c == ' ' || c == '\t' || c == '\n' || c == '\r' || c == '\x0b' || c == '\x0c'

/-- Python `s.strip()`. -/
def pyStrip (s : String) : String :=
  ⟨((s.data.dropWhile isSpaceChar).reverse.dropWhile isSpaceChar).reverse⟩

/-! ### start_register (register_service.py lines 62-84)

The service state that `start_register` consults is reduced to the values
it reads: whether the ACCOUNTS_CONFIG environment variable is set, the
status of the current task (if one exists, as returned by
`get_current_task`), the submitted count and domain, and the configured
defaults `config.basic.register_default_count` and
`config.basic.register_domain`.  Modelled from the spec:
core/base_task_service.py is not among the sources, so a freshly
constructed task carrying status PENDING and `get_current_task` follow
section 4.1 of the spec ("creates and enqueues a new Job (status
PENDING)") and the base-service unit test. -/

inductive SubmitError : Type
  | accountsConfigSet
  | alreadyRunning
  deriving DecidableEq, Repr

/-- Line 69: `current and current.status in (TaskStatus.PENDING, TaskStatus.RUNNING)`. -/
def currentActive : Option TaskStatus → Bool
  | some TaskStatus.pending => true
  | some TaskStatus.running => true
  | _ => false

/-- The fields of the freshly created `RegisterTask` that the claims are
about (line 78; the id is a fresh uuid and is not modelled). -/
structure NewRegisterTask : Type where
  count : Int
  domain : Option String
  status : TaskStatus
  deriving DecidableEq, Repr

/-- Lines 72-74: `(domain or "").strip()`, falling back to
`(config.basic.register_domain or "").strip() or None`. -/
def domainValue (domain : Option String) (configDomain : Option String) : Option String :=
  let dv := pyStrip (domain.getD "")
  if dv = "" then
    let cv := pyStrip (configDomain.getD "")
    if cv = "" then none else some cv
  else some dv

/-- Lines 62-84 of register_service.py.  `count` is Python's
`Optional[int]`; `count or config.basic.register_default_count` falls back
on `None` and on `0` (both falsy), and the result is clamped by
`max(1, int(register_count))`. -/
def start_register (accountsConfigEnvSet : Bool) (current : Option TaskStatus)
    (count : Option Int) (defaultCount : Int) (domain : Option String)
    (configDomain : Option String) : Except SubmitError NewRegisterTask :=
  if accountsConfigEnvSet then Except.error SubmitError.accountsConfigSet
  else if currentActive current then Except.error SubmitError.alreadyRunning
  else
    let register_count : Int :=
      match count with
      | none => defaultCount
      | some c => if c = 0 then defaultCount else c
    Except.ok
      { count := max 1 register_count
        domain := domainValue domain configDomain
        status := TaskStatus.pending }

/-! ### login_and_extract (gemini_automation_patchright.py lines 83-96) -/

/-- How the body of the `try` in `login_and_extract` (context creation,
warmup, `_run_flow`) ends: with a result dictionary, by raising
`TaskCancelledError`, or by raising any other exception. -/
inductive FlowExec : Type
  | value (success : Bool) (error : Option String)
  | raiseCancelled
  | raiseOther (msg : String)
  deriving DecidableEq, Repr

/-- `login_and_extract`: `except TaskCancelledError: raise` re-throws the
cancellation signal (modelled as `Except.error ()`), while
`except Exception as exc` converts any other exception into the dictionary
with success False and error str(exc). -/
def login_and_extract : FlowExec → Except Unit (Bool × Option String)
  | FlowExec.value s e => Except.ok (s, e)
  | FlowExec.raiseCancelled => Except.error ()
  | FlowExec.raiseOther msg => Except.ok (false, some msg)

/-! ### _run_flow step 2 (lines 267-275): the post-deep-link shortcut -/

inductive Step2Next : Type
  | extractConfig
  | requestCode
  deriving DecidableEq, Repr

/-- Lines 270-275: `has_business_params = "business.gemini.google" in
current_url and ("csesidx=" in current_url or "/cid/" in current_url)`;
when it holds the flow returns `self._extract_config(...)` at once,
otherwise it falls through to the send-code step. -/
def step2Decision (current_url : String) : Step2Next :=
  if containsSub current_url "business.gemini.google" &&
      (containsSub current_url "csesidx=" || containsSub current_url "/cid/") then
    Step2Next.extractConfig
  else Step2Next.requestCode

/-! ### _run_flow step 5 (lines 292-314): verification polling with resend -/

inductive VerifyOutcome : Type
  | code (c : String)
  | timeoutNoResend
  | resendNotFound
  | timeoutAfterResend
  deriving DecidableEq, Repr

/-- The `for attempt in range(self.verification_resend_clicks)` loop of
lines 301-310.  `clickOk i` is whether `_click_resend_code_button`
succeeds in extra cycle `i`, `times i` abstracts the `datetime.now()`
captured at the start of extra cycle `i` (the new `send_time`),
`pollSince i t` is the result of `_poll_for_verification_code` in cycle
`i` with `since_time = t`, `n` the remaining budget.  The second
component of the result is the list of `send_time` values the started
extra cycles used. -/
def resendGo (clickOk : Nat → Bool) (pollSince : Nat → Nat → Option String)
    (times : Nat → Nat) : Nat → Nat → VerifyOutcome × List Nat
  | 0, _ => (VerifyOutcome.timeoutAfterResend, [])
  | n + 1, attempt =>
    if clickOk attempt then
      match pollSince attempt (times attempt) with
      | some c => (VerifyOutcome.code c, [times attempt])
      | none =>
        let r := resendGo clickOk pollSince times n (attempt + 1)
        (r.1, times attempt :: r.2)
    else (VerifyOutcome.resendNotFound, [times attempt])

/-- Lines 294-314: the first poll, then (only if it yielded nothing) the
budget test `verification_resend_clicks <= 0` and the resend loop. -/
def verificationPollStep (firstPoll : Option String) (clickOk : Nat → Bool)
    (pollSince : Nat → Nat → Option String) (times : Nat → Nat) (budget : Nat) :
    VerifyOutcome × List Nat :=
  match firstPoll with
  | some c => (VerifyOutcome.code c, [])
  | none =>
    if budget = 0 then (VerifyOutcome.timeoutNoResend, [])
    else resendGo clickOk pollSince times budget 0

/-! ### _extract_config (gemini_automation_patchright.py lines 614-650)

The page URL after the initial re-navigation, the browser cookies and the
current time are taken as inputs.  The cookie `expires` field (Playwright:
epoch seconds) and all times are integers in seconds;
`datetime.fromtimestamp(e, beijing_tz) - timedelta(hours=12)` then
`strftime` renders the wall-clock instant `e - 12*3600` in UTC+8, which we
represent as the shifted epoch value `(e - 12*3600) + 8*3600`; the default
branch `datetime.now(beijing_tz) + timedelta(hours=12)` renders
`(now + 12*3600) + 8*3600` the same way. -/

structure CookieRec : Type where
  name : String
  value : String
  expires : Option Int
  deriving DecidableEq, Repr

/-- Python `next((c for c in cookies if c["name"] == n), None)`. -/
def findCookie (cookies : List CookieRec) (n : String) : Option CookieRec :=
  cookies.find? (fun c => c.name == n)

structure AccountConfig : Type where
  id : String
  csesidx : String
  config_id : String
  secure_c_ses : Option String
  host_c_oses : Option String
  expires_at : Int
  deriving DecidableEq, Repr

/-- Lines 621-648 of `_extract_config` (after the conditional
re-navigation of lines 617-619, whose resulting URL is the `url` input
here): guard on `"cid/" in url`, parse
`url.split("cid/")[1].split("?")[0].split("/")[0]` and
`url.split("csesidx=")[1].split("&")[0]`, read the two session cookies,
and compute `expires_at`. -/
def extract_config (url : String) (email : String) (cookies : List CookieRec)
    (now : Int) : Except String AccountConfig :=
  if containsSub url "cid/" = false then Except.error "cid not found"
  else
    let config_id := splitFirst (splitFirst (splitSecond url "cid/") "?") "/"
    let csesidx :=
      if containsSub url "csesidx=" then splitFirst (splitSecond url "csesidx=") "&"
      else ""
    let ses := (findCookie cookies "__Secure-C_SES").map (fun c => c.value)
    let host := (findCookie cookies "__Host-C_OSES").map (fun c => c.value)
    let expires_at : Int :=
      match (findCookie cookies "__Secure-C_SES").bind (fun c => c.expires) with
      | some e => (e - 12 * 3600) + 8 * 3600
      | none => (now + 12 * 3600) + 8 * 3600
    Except.ok
      { id := email, csesidx := csesidx, config_id := config_id
        secure_c_ses := ses, host_c_oses := host, expires_at := expires_at }

/-! ### GPTMail client (gptmail_client.py)

`fetch_verification_code` (lines 99-161) is embedded over the decoded
message list of the `/api/emails` response.  For each message,
`timestamp = some t` states that the JSON field `timestamp` is present and
is an int with value `t` (the code filters only values passing
`isinstance(msg_ts, int)`); `code = some c` states that the detail request
for the message succeeds and the shared pattern matcher
`extract_verification_code` finds `c` in the concatenation of its
`content` and `html_content`; `code = none` covers a failed detail
request, an unsuccessful payload and a body without a code.  `sinceTs`
is `int(since_time.timestamp())` when `since_time` was passed, `none`
otherwise. -/

structure GptMsg : Type where
  id : Option String
  timestamp : Option Int
  code : Option String
  deriving DecidableEq, Repr

/-- Line 137: `if since_ts and isinstance(msg_ts, int) and msg_ts < since_ts:
continue` — note `since_ts` is tested for truthiness, so the value 0
disables the filter. -/
def gptSkip (sinceTs : Option Int) (m : GptMsg) : Bool :=
  match sinceTs, m.timestamp with
  | some s, some t => decide (s ≠ 0) && decide (t < s)
  | _, _ => false

/-- The `for idx, msg in enumerate(emails[:10], 1)` loop of lines 132-155:
skip a message without an id, skip a stale message, return the first code
found. -/
def gptFetchGo (sinceTs : Option Int) : List GptMsg → Option String
  | [] => none
  | m :: rest =>
    match m.id with
    | none => gptFetchGo sinceTs rest
    | some _ =>
      if gptSkip sinceTs m then gptFetchGo sinceTs rest
      else
        match m.code with
        | some c => some c
        | none => gptFetchGo sinceTs rest

/-- `fetch_verification_code` of gptmail_client.py: the empty-mailbox
early return of line 122, then the scan of the 10 most recent messages. -/
def gptmail_fetch_verification_code (sinceTs : Option Int) (emails : List GptMsg) :
    Option String :=
  if emails.isEmpty then none
  else gptFetchGo sinceTs (emails.take 10)

/-! ### MoeMail client (moemail_client.py)

Same shape as the GPTMail embedding.  `sentAt = some t` states that the
first present field among `received_at`, `receivedAt` and `sent_at` is a
number with value `t` (milliseconds; the code filters values passing
`isinstance(sent_at, (int, float))`); `code = some c` states the detail
request succeeds, `html or content` is non-empty and the pattern matcher
finds `c`; `sinceMs` is `int(since_time.timestamp() * 1000)` when
`since_time` was passed. -/

structure MoeMsg : Type where
  id : Option String
  sentAt : Option Int
  code : Option String
  deriving DecidableEq, Repr

/-- Line 144: `if since_ms and isinstance(sent_at, (int, float)) and
sent_at < since_ms: continue` — `since_ms` is again tested for
truthiness. -/
def moeSkip (sinceMs : Option Int) (m : MoeMsg) : Bool :=
  match sinceMs, m.sentAt with
  | some s, some t => decide (s ≠ 0) && decide (t < s)
  | _, _ => false

/-- The `for idx, msg in enumerate(messages[:10], 1)` loop of lines
138-163. -/
def moeFetchGo (sinceMs : Option Int) : List MoeMsg → Option String
  | [] => none
  | m :: rest =>
    match m.id with
    | none => moeFetchGo sinceMs rest
    | some _ =>
      if moeSkip sinceMs m then moeFetchGo sinceMs rest
      else
        match m.code with
        | some c => some c
        | none => moeFetchGo sinceMs rest

/-- `fetch_verification_code` of moemail_client.py: the empty-mailbox
early return of line 131, then the scan of the 10 most recent messages. -/
def moemail_fetch_verification_code (sinceMs : Option Int) (messages : List MoeMsg) :
    Option String :=
  if messages.isEmpty then none
  else moeFetchGo sinceMs (messages.take 10)

/-! ### poll_for_code (gptmail_client.py lines 163-180, moemail_client.py
lines 171-188; the two bodies are identical)

`fetchAt i` is the result of `fetch_verification_code` during cycle `i`
(cycles are numbered from 1 as in the Python loop); the mailbox can change
between cycles, hence the dependence on `i`.  The result is the returned
code together with the number of fetch calls performed and the number of
`time.sleep(interval)` calls performed. -/

def pollGo (fetchAt : Nat → Option String) : Nat → Nat → Option String × Nat × Nat
  | 0, _ => (none, 0, 0)
  | 1, i =>
    match fetchAt i with
    | some c => (some c, 1, 0)
    | none => (none, 1, 0)
  | n + 2, i =>
    match fetchAt i with
    | some c => (some c, 1, 0)
    | none =>
      let r := pollGo fetchAt (n + 1) (i + 1)
      (r.1, r.2.1 + 1, r.2.2 + 1)

/-- `poll_for_code`: `max_retries = max(1, timeout // interval)`, then the
`for i in range(1, max_retries + 1)` loop, sleeping only when
`i < max_retries`. -/
def poll_for_code (fetchAt : Nat → Option String) (timeout interval : Nat) :
    Option String × Nat × Nat :=
  pollGo fetchAt (max 1 (timeout / interval)) 1

theorem recordAll_zero (outcomes : Nat → AttemptOutcome) (idx : Nat) (st : TaskState) :
    recordAll outcomes idx 0 st = st := rfl

theorem recordAll_succ (outcomes : Nat → AttemptOutcome) (idx n : Nat) (st : TaskState) :
    recordAll outcomes idx (n + 1) st =
      recordAll outcomes (idx + 1) n (recordResult st (resultOf (outcomes idx))) := by
  simp [recordAll, List.range']

theorem recordAll_congr (f g : Nat → AttemptOutcome) :
    ∀ n idx st, (∀ i, idx ≤ i → i < idx + n → f i = g i) →
      recordAll f idx n st = recordAll g idx n st := by
  intro n
  induction n with
  | zero => intro idx st _; rfl
  | succ n ih =>
    intro idx st h
    rw [recordAll_succ, recordAll_succ, h idx (le_refl _) (by omega)]
    exact ih (idx + 1) _ (fun i h1 h2 => h i (by omega) (by omega))

theorem recordAll_progress (outcomes : Nat → AttemptOutcome) :
    ∀ n idx st, (recordAll outcomes idx n st).progress = st.progress + n := by
  intro n
  induction n with
  | zero => intro idx st; rfl
  | succ n ih =>
    intro idx st
    rw [recordAll_succ, ih]
    simp [recordResult]
    omega

theorem recordAll_results (outcomes : Nat → AttemptOutcome) :
    ∀ n idx st, (recordAll outcomes idx n st).results =
      st.results ++ (List.range' idx n).map (fun i => resultOf (outcomes i)) := by
  intro n
  induction n with
  | zero => intro idx st; simp [recordAll_zero, List.range']
  | succ n ih =>
    intro idx st
    rw [recordAll_succ, ih]
    simp [recordResult, List.range']

theorem recordAll_fail (outcomes : Nat → AttemptOutcome) :
    ∀ n idx st, (recordAll outcomes idx n st).fail_count =
      st.fail_count +
        ((List.range' idx n).filter (fun i => !(resultOf (outcomes i)).success)).length := by
  intro n
  induction n with
  | zero => intro idx st; simp [recordAll_zero, List.range']
  | succ n ih =>
    intro idx st
    rw [recordAll_succ, ih]
    by_cases h : (resultOf (outcomes idx)).success
    · simp [recordResult, List.range', h]
    · simp only [Bool.not_eq_true] at h
      simp [recordResult, List.range', h]
      omega

theorem recordAll_count (outcomes : Nat → AttemptOutcome) :
    ∀ n idx st, (recordAll outcomes idx n st).count = st.count := by
  intro n
  induction n with
  | zero => intro idx st; rfl
  | succ n ih =>
    intro idx st
    rw [recordAll_succ, ih]
    rfl

theorem runLoop_step (outcomes : Nat → AttemptOutcome) (cancel : Nat → Bool) (now n idx : Nat)
    (st : TaskState) (hc : cancel idx = false)
    (hnc : outcomes idx ≠ AttemptOutcome.taskCancelled) :
    runLoop outcomes cancel now (n + 1) idx st =
      runLoop outcomes cancel now n (idx + 1) (recordResult st (resultOf (outcomes idx))) := by
  cases h : outcomes idx with
  | taskCancelled => exact absurd h hnc
  | ok r => simp [runLoop, hc, h, resultOf]
  | exn msg => simp [runLoop, hc, h, resultOf]

theorem runLoop_chunk (outcomes : Nat → AttemptOutcome) (cancel : Nat → Bool) (now : Nat) :
    ∀ m n idx st, m ≤ n →
      (∀ i, idx ≤ i → i < idx + m → cancel i = false) →
      (∀ i, idx ≤ i → i < idx + m → outcomes i ≠ AttemptOutcome.taskCancelled) →
      runLoop outcomes cancel now n idx st =
        runLoop outcomes cancel now (n - m) (idx + m) (recordAll outcomes idx m st) := by
  intro m
  induction m with
  | zero => intro n idx st _ _ _; simp [recordAll_zero]
  | succ m ih =>
    intro n idx st hmn hc hnc
    obtain ⟨n', rfl⟩ : ∃ n', n = n' + 1 := ⟨n - 1, by omega⟩
    rw [runLoop_step outcomes cancel now n' idx st
        (hc idx (le_refl _) (by omega)) (hnc idx (le_refl _) (by omega))]
    rw [ih n' (idx + 1) _ (by omega) (fun i h1 h2 => hc i (by omega) (by omega))
        (fun i h1 h2 => hnc i (by omega) (by omega))]
    rw [← recordAll_succ]
    congr 1
    · omega
    · omega

/-- With no cancellation observed and no cancellation exception, the loop
runs every attempt and finishes through the post-loop status computation. -/
theorem run_register_no_cancel_eq (count : Nat) (outcomes : Nat → AttemptOutcome) (now : Nat)
    (hnc : ∀ i, i < count → outcomes i ≠ AttemptOutcome.taskCancelled) :
    run_register count outcomes (fun _ => false) now =
      finishTask (recordAll outcomes 0 count (initTaskState count)) false now := by
  rw [run_register,
    runLoop_chunk outcomes (fun _ => false) now count count 0 (initTaskState count)
      (le_refl _) (fun i _ _ => rfl) (fun i h1 h2 => hnc i (by omega))]
  simp [runLoop]

/-- If the cancellation flag turns true exactly once `k` attempts have
completed (`cancel i` true iff `k ≤ i`), the loop records the first `k`
results and ends CANCELLED: through the pre-attempt check when `k < count`,
through the post-loop check when `k = count`. -/
theorem run_register_cancel_after (count k : Nat) (f : Nat → AttemptOutcome) (now : Nat)
    (hk : k ≤ count) (hnc : ∀ i, i < k → f i ≠ AttemptOutcome.taskCancelled) :
    run_register count f (fun i => decide (k ≤ i)) now =
      { recordAll f 0 k (initTaskState count) with
        status := TaskStatus.cancelled, finished_at := some now } := by
  rw [run_register,
    runLoop_chunk f (fun i => decide (k ≤ i)) now k count 0 (initTaskState count) hk
      (fun i h1 h2 => decide_eq_false (by omega)) (fun i h1 h2 => hnc i (by omega))]
  rcases Nat.eq_or_lt_of_le hk with heq | hlt
  · subst heq
    simp [runLoop, finishTask]
  · obtain ⟨n', hn'⟩ : ∃ n', count - k = n' + 1 := ⟨count - k - 1, by omega⟩
    rw [hn']
    simp [runLoop, markCancelled]

/-- If attempt `j` raises `TaskCancelledError` while the flag itself was
never set, the loop stops at the `except TaskCancelledError` handler with
the first `j` results recorded and the task CANCELLED. -/
theorem run_register_cancelled_exn (count j : Nat) (f : Nat → AttemptOutcome) (now : Nat)
    (hj : j < count) (hbefore : ∀ i, i < j → f i ≠ AttemptOutcome.taskCancelled)
    (hq : f j = AttemptOutcome.taskCancelled) :
    run_register count f (fun _ => false) now =
      { recordAll f 0 j (initTaskState count) with
        status := TaskStatus.cancelled, finished_at := some now } := by
  rw [run_register,
    runLoop_chunk f (fun _ => false) now j count 0 (initTaskState count) (by omega)
      (fun i _ _ => rfl) (fun i h1 h2 => hbefore i (by omega))]
  obtain ⟨n', hn'⟩ : ∃ n', count - j = n' + 1 := ⟨count - j - 1, by omega⟩
  rw [hn']
  simp [runLoop, hq, markCancelled]

/-- C1: for every count and every sequence of per-attempt outcomes with no
cancellation requested (the flag always reads false and no attempt raises
the cancellation signal), the register run loop records exactly one result
per attempt — `progress = count` and `results` is the list of per-attempt
result dictionaries, a raised exception being recorded as the dictionary
with success False and the error text, with the remaining attempts still
running — and the final status is SUCCESS when every attempt succeeded and
FAILED otherwise, with `finished_at` stamped. -/
theorem register_loop_records_every_attempt (count : Nat)
    (outcomes : Nat → AttemptOutcome) (now : Nat)
    (hnc : ∀ i, i < count → outcomes i ≠ AttemptOutcome.taskCancelled) :
    (run_register count outcomes (fun _ => false) now).progress = count ∧
    (run_register count outcomes (fun _ => false) now).results =
      (List.range count).map (fun i => resultOf (outcomes i)) ∧
    (run_register count outcomes (fun _ => false) now).status =
      (if ∀ i, i < count → (resultOf (outcomes i)).success = true
        then TaskStatus.success else TaskStatus.failed) ∧
    (run_register count outcomes (fun _ => false) now).finished_at = some now := by
  rw [run_register_no_cancel_eq count outcomes now hnc]
  refine ⟨?_, ?_, ?_, rfl⟩
  · simp [finishTask, recordAll_progress, initTaskState]
  · simp [finishTask, recordAll_results, initTaskState, List.range_eq_range']
  · have hfail := recordAll_fail outcomes count 0 (initTaskState count)
    have hstat : (finishTask (recordAll outcomes 0 count (initTaskState count)) false now).status
        = if (recordAll outcomes 0 count (initTaskState count)).fail_count = 0
          then TaskStatus.success else TaskStatus.failed := by
      simp [finishTask]
    by_cases hall : ∀ i, i < count → (resultOf (outcomes i)).success = true
    · rw [if_pos hall]
      have hnil : (List.range' 0 count).filter
          (fun i => !(resultOf (outcomes i)).success) = [] := by
        apply List.filter_eq_nil_iff.mpr
        intro a ha
        have hlt := (List.mem_range'_1.mp ha).2
        simp [hall a (by omega)]
      rw [hstat, hfail, hnil]
      simp [initTaskState]
    · rw [if_neg hall]
      push_neg at hall
      obtain ⟨i, hi, hs⟩ := hall
      have hmem : i ∈ (List.range' 0 count).filter
          (fun i => !(resultOf (outcomes i)).success) := by
        apply List.mem_filter.mpr
        exact ⟨List.mem_range'_1.mpr ⟨Nat.zero_le _, by omega⟩, by simp [hs]⟩
      have hlen : ((List.range' 0 count).filter
          (fun i => !(resultOf (outcomes i)).success)).length ≠ 0 := by
        intro h0
        rw [List.length_eq_zero] at h0
        rw [h0] at hmem
        exact absurd hmem (List.not_mem_nil i)
      rw [hstat, hfail]
      rw [if_neg (by simpa [initTaskState] using hlen)]

/-- Witness for C1 at count 2 with one successful and one raising attempt. -/
theorem register_loop_records_every_attempt_witness :
    (run_register 2
        (fun i => if i = 0 then AttemptOutcome.ok ⟨true, none, some "a"⟩
                  else AttemptOutcome.exn "boom")
        (fun _ => false) 5).progress = 2 ∧
    (run_register 2
        (fun i => if i = 0 then AttemptOutcome.ok ⟨true, none, some "a"⟩
                  else AttemptOutcome.exn "boom")
        (fun _ => false) 5).results =
      (List.range 2).map (fun i =>
        resultOf (if i = 0 then AttemptOutcome.ok ⟨true, none, some "a"⟩
                  else AttemptOutcome.exn "boom")) ∧
    (run_register 2
        (fun i => if i = 0 then AttemptOutcome.ok ⟨true, none, some "a"⟩
                  else AttemptOutcome.exn "boom")
        (fun _ => false) 5).status =
      (if ∀ i, i < 2 →
          (resultOf (if i = 0 then AttemptOutcome.ok ⟨true, none, some "a"⟩
                     else AttemptOutcome.exn "boom")).success = true
        then TaskStatus.success else TaskStatus.failed) ∧
    (run_register 2
        (fun i => if i = 0 then AttemptOutcome.ok ⟨true, none, some "a"⟩
                  else AttemptOutcome.exn "boom")
        (fun _ => false) 5).finished_at = some 5 :=
  register_loop_records_every_attempt 2
    (fun i => if i = 0 then AttemptOutcome.ok ⟨true, none, some "a"⟩
              else AttemptOutcome.exn "boom")
    5 (by decide)

/-- C5: if the cancellation flag becomes set exactly after attempt `k`
completes and before attempt `k+1` starts (so the flag reads true at the
check before attempt `i` iff `k ≤ i`), then no attempt after the `k`-th is
recorded: exactly `k` results, status CANCELLED, `finished_at` set — and
the final task state does not depend on the outcomes of the attempts after
the `k`-th at all. -/
theorem register_cancel_between_attempts (count k : Nat)
    (outcomes : Nat → AttemptOutcome) (now : Nat) (hk : k ≤ count)
    (hnc : ∀ i, i < k → outcomes i ≠ AttemptOutcome.taskCancelled) :
    (run_register count outcomes (fun i => decide (k ≤ i)) now).results.length = k ∧
    (run_register count outcomes (fun i => decide (k ≤ i)) now).progress = k ∧
    (run_register count outcomes (fun i => decide (k ≤ i)) now).status =
      TaskStatus.cancelled ∧
    (run_register count outcomes (fun i => decide (k ≤ i)) now).finished_at = some now ∧
    ∀ g : Nat → AttemptOutcome, (∀ i, i < k → g i = outcomes i) →
      run_register count g (fun i => decide (k ≤ i)) now =
        run_register count outcomes (fun i => decide (k ≤ i)) now := by
  rw [run_register_cancel_after count k outcomes now hk hnc]
  refine ⟨?_, ?_, rfl, rfl, ?_⟩
  · simp [recordAll_results, initTaskState]
  · simp [recordAll_progress, initTaskState]
  · intro g hg
    rw [run_register_cancel_after count k g now hk
        (fun i h => by rw [hg i h]; exact hnc i h)]
    rw [recordAll_congr g outcomes k 0 (initTaskState count)
        (fun i h1 h2 => hg i (by omega))]

/-- Witness for C5: count 3, flag set after the first attempt completes. -/
theorem register_cancel_between_attempts_witness :
    (run_register 3 (fun _ => AttemptOutcome.ok ⟨true, none, none⟩)
        (fun i => decide (1 ≤ i)) 9).results.length = 1 ∧
    (run_register 3 (fun _ => AttemptOutcome.ok ⟨true, none, none⟩)
        (fun i => decide (1 ≤ i)) 9).progress = 1 ∧
    (run_register 3 (fun _ => AttemptOutcome.ok ⟨true, none, none⟩)
        (fun i => decide (1 ≤ i)) 9).status = TaskStatus.cancelled ∧
    (run_register 3 (fun _ => AttemptOutcome.ok ⟨true, none, none⟩)
        (fun i => decide (1 ≤ i)) 9).finished_at = some 9 ∧
    ∀ g : Nat → AttemptOutcome, (∀ i, i < 1 → g i = AttemptOutcome.ok ⟨true, none, none⟩) →
      run_register 3 g (fun i => decide (1 ≤ i)) 9 =
        run_register 3 (fun _ => AttemptOutcome.ok ⟨true, none, none⟩)
          (fun i => decide (1 ≤ i)) 9 :=
  register_cancel_between_attempts 3 1 (fun _ => AttemptOutcome.ok ⟨true, none, none⟩) 9
    (by decide) (by decide)

/-- C6: the explicit cancellation signal always propagates out of the state
machine — `login_and_extract` re-raises `TaskCancelledError` while mapping
every other exception to a success-False dictionary — and when attempt `j`
of the run loop raises it (the flag itself never having been set), the
orchestrator marks the task CANCELLED at once: no failure result is
recorded for attempt `j` and no later attempt runs. -/
theorem cancellation_signal_propagates :
    login_and_extract FlowExec.raiseCancelled = Except.error () ∧
    (∀ msg, login_and_extract (FlowExec.raiseOther msg) = Except.ok (false, some msg)) ∧
    (∀ (s : Bool) (e : Option String),
      login_and_extract (FlowExec.value s e) = Except.ok (s, e)) ∧
    ∀ (count j : Nat) (outcomes : Nat → AttemptOutcome) (now : Nat),
      j < count →
      (∀ i, i < j → outcomes i ≠ AttemptOutcome.taskCancelled) →
      outcomes j = AttemptOutcome.taskCancelled →
      (run_register count outcomes (fun _ => false) now).status = TaskStatus.cancelled ∧
      (run_register count outcomes (fun _ => false) now).results.length = j ∧
      (run_register count outcomes (fun _ => false) now).progress = j ∧
      (run_register count outcomes (fun _ => false) now).finished_at = some now := by
  refine ⟨rfl, fun msg => rfl, fun s e => rfl, ?_⟩
  intro count j outcomes now hj hbefore hq
  rw [run_register_cancelled_exn count j outcomes now hj hbefore hq]
  refine ⟨rfl, ?_, ?_, rfl⟩
  · simp [recordAll_results, initTaskState]
  · simp [recordAll_progress, initTaskState]

/-- Witness for C6: count 2, the second attempt raises the cancellation
signal. -/
theorem cancellation_signal_propagates_witness :
    (run_register 2
        (fun i => if i = 0 then AttemptOutcome.ok ⟨true, none, none⟩
                  else AttemptOutcome.taskCancelled)
        (fun _ => false) 4).status = TaskStatus.cancelled ∧
    (run_register 2
        (fun i => if i = 0 then AttemptOutcome.ok ⟨true, none, none⟩
                  else AttemptOutcome.taskCancelled)
        (fun _ => false) 4).results.length = 1 ∧
    (run_register 2
        (fun i => if i = 0 then AttemptOutcome.ok ⟨true, none, none⟩
                  else AttemptOutcome.taskCancelled)
        (fun _ => false) 4).progress = 1 ∧
    (run_register 2
        (fun i => if i = 0 then AttemptOutcome.ok ⟨true, none, none⟩
                  else AttemptOutcome.taskCancelled)
        (fun _ => false) 4).finished_at = some 4 :=
  cancellation_signal_propagates.2.2.2 2 1
    (fun i => if i = 0 then AttemptOutcome.ok ⟨true, none, none⟩
              else AttemptOutcome.taskCancelled)
    4 (by decide) (by decide) (by decide)

/-- C2 (counterexample): a URL carrying the client-id path segment but no
session-index parameter already takes the step-2 shortcut, so the shortcut
is not conditioned on both markers being present. -/
theorem step2_shortcut_counterexample :
    step2Decision "https://business.gemini.google/u/0/cid/abc123" =
      Step2Next.extractConfig ∧
    containsSub "https://business.gemini.google/u/0/cid/abc123" "csesidx=" = false ∧
    containsSub "https://business.gemini.google/u/0/cid/abc123" "/cid/" = true := by
  refine ⟨by decide, by decide, by decide⟩

/-- C2 (amended): after the deep-link navigation, the flow skips directly
to config extraction exactly when the URL mentions the business host and
carries at least one of the session-index parameter or the client-id path
segment; only when neither is present does it proceed to request a
verification code. -/
theorem step2_shortcut_iff (url : String) :
    step2Decision url = Step2Next.extractConfig ↔
      containsSub url "business.gemini.google" = true ∧
        (containsSub url "csesidx=" = true ∨ containsSub url "/cid/" = true) := by
  unfold step2Decision
  cases hb : containsSub url "business.gemini.google" <;>
    cases hc : containsSub url "csesidx=" <;>
      cases hd : containsSub url "/cid/" <;> simp

/-- C4: with registration enabled (ACCOUNTS_CONFIG unset), start_register
rejects the submission with the already-running error exactly when a
current task exists with status PENDING or RUNNING (no task is created),
and otherwise creates a fresh task whose status is PENDING. -/
theorem start_register_single_flight (current : Option TaskStatus)
    (count : Option Int) (defaultCount : Int) (domain configDomain : Option String) :
    ((current = some TaskStatus.pending ∨ current = some TaskStatus.running) →
      start_register false current count defaultCount domain configDomain =
        Except.error SubmitError.alreadyRunning) ∧
    (¬(current = some TaskStatus.pending ∨ current = some TaskStatus.running) →
      ∃ t, start_register false current count defaultCount domain configDomain =
          Except.ok t ∧ t.status = TaskStatus.pending) := by
  constructor
  · intro h
    have hca : currentActive current = true := by
      rcases h with h | h <;> rw [h] <;> rfl
    simp [start_register, hca]
  · intro h
    have hca : currentActive current = false := by
      cases current with
      | none => rfl
      | some st => cases st <;> simp [currentActive] <;> tauto
    have hrun : start_register false current count defaultCount domain configDomain =
        Except.ok
          { count := max 1 (match count with
              | none => defaultCount
              | some c => if c = 0 then defaultCount else c)
            domain := domainValue domain configDomain
            status := TaskStatus.pending } := by
      simp [start_register, hca]
    exact ⟨_, hrun, rfl⟩

/-- Witness for C4: a RUNNING current task is rejected; with no current
task a PENDING task is created. -/
theorem start_register_single_flight_witness :
    start_register false (some TaskStatus.running) (some 2) 5 none none =
      Except.error SubmitError.alreadyRunning ∧
    ∃ t, start_register false none (some 2) 5 none none =
        Except.ok t ∧ t.status = TaskStatus.pending :=
  ⟨(start_register_single_flight (some TaskStatus.running) (some 2) 5 none none).1
      (Or.inr rfl),
   (start_register_single_flight none (some 2) 5 none none).2 (by simp)⟩

/-- C10: every task start_register creates has count at least 1: a count of
None or 0 falls back to the configured default, and the clamp
`max(1, int(register_count))` yields that a job with count 0 can never be
constructed through the public submit operation. -/
theorem start_register_count_at_least_one (env : Bool) (current : Option TaskStatus)
    (count : Option Int) (defaultCount : Int) (domain configDomain : Option String) :
    (∀ t, start_register env current count defaultCount domain configDomain =
        Except.ok t → 1 ≤ t.count) ∧
    ((count = none ∨ count = some 0) →
      ∀ t, start_register env current count defaultCount domain configDomain =
        Except.ok t → t.count = max 1 defaultCount) := by
  constructor
  · intro t ht
    cases env with
    | true => simp [start_register] at ht
    | false =>
      cases hca : currentActive current with
      | true => simp [start_register, hca] at ht
      | false =>
        simp [start_register, hca] at ht
        rw [← ht]
        exact le_max_left 1 _
  · intro hcount t ht
    cases env with
    | true => simp [start_register] at ht
    | false =>
      cases hca : currentActive current with
      | true => simp [start_register, hca] at ht
      | false =>
        rcases hcount with hc | hc <;> subst hc <;>
          simp [start_register, hca] at ht <;> rw [← ht]

/-- Witness for C10 at count = some 0 and default 3. -/
theorem start_register_count_at_least_one_witness :
    (1 : Int) ≤
      ({ count := max 1 3, domain := none, status := TaskStatus.pending } :
        NewRegisterTask).count ∧
    ({ count := max 1 3, domain := none, status := TaskStatus.pending } :
        NewRegisterTask).count = max 1 3 :=
  ⟨(start_register_count_at_least_one false none (some 0) 3 none none).1
      { count := max 1 3, domain := none, status := TaskStatus.pending } rfl,
   (start_register_count_at_least_one false none (some 0) 3 none none).2
      (Or.inr rfl)
      { count := max 1 3, domain := none, status := TaskStatus.pending } rfl⟩

/-- C9: in config extraction, the emitted expiry is the session cookie's
native expiry rendered in the fixed UTC+8 timezone and shifted by the
fixed 12-hour offset whenever the cookie carries an expiry field
(`e - 12h`, rendered at `+8h`), and defaults to the current time plus the
same fixed 12-hour offset (rendered in the same timezone) when the cookie
or its expiry field is absent. -/
theorem extract_config_expiry (url email : String) (cookies : List CookieRec)
    (now : Int) (cfg : AccountConfig)
    (h : extract_config url email cookies now = Except.ok cfg) :
    (∀ e, (findCookie cookies "__Secure-C_SES").bind (fun c => c.expires) = some e →
      cfg.expires_at = (e - 12 * 3600) + 8 * 3600) ∧
    ((findCookie cookies "__Secure-C_SES").bind (fun c => c.expires) = none →
      cfg.expires_at = (now + 12 * 3600) + 8 * 3600) := by
  rw [extract_config] at h
  by_cases hcid : containsSub url "cid/" = false
  · rw [if_pos hcid] at h
    cases h
  · rw [if_neg hcid] at h
    simp only [Except.ok.injEq] at h
    subst h
    constructor
    · intro e he
      simp [he]
    · intro he
      simp [he]

/-- Witness for C9: a session cookie expiring at epoch second 100000. -/
theorem extract_config_expiry_witness :
    ({ id := "e@x", csesidx := "xyz", config_id := "abc",
       secure_c_ses := some "SES", host_c_oses := none,
       expires_at := (100000 - 12 * 3600) + 8 * 3600 } : AccountConfig).expires_at =
      ((100000 : Int) - 12 * 3600) + 8 * 3600 :=
  (extract_config_expiry "x/cid/abc?csesidx=xyz" "e@x"
      [{ name := "__Secure-C_SES", value := "SES", expires := some 100000 }] 0
      { id := "e@x", csesidx := "xyz", config_id := "abc",
        secure_c_ses := some "SES", host_c_oses := none,
        expires_at := (100000 - 12 * 3600) + 8 * 3600 }
      (by rfl)).1 100000 rfl

theorem gptSkip_false_fresh (s : Int) (hs : s ≠ 0) (m : GptMsg)
    (h : gptSkip (some s) m = false) : ∀ t, m.timestamp = some t → s ≤ t := by
  intro t ht
  simp [gptSkip, ht, hs] at h
  omega

theorem moeSkip_false_fresh (s : Int) (hs : s ≠ 0) (m : MoeMsg)
    (h : moeSkip (some s) m = false) : ∀ t, m.sentAt = some t → s ≤ t := by
  intro t ht
  simp [moeSkip, ht, hs] at h
  omega

theorem gptFetchGo_sound (s : Int) (hs : s ≠ 0) :
    ∀ (l : List GptMsg) (c : String), gptFetchGo (some s) l = some c →
      ∃ m ∈ l, m.code = some c ∧ ∀ t, m.timestamp = some t → s ≤ t := by
  intro l
  induction l with
  | nil => intro c h; simp [gptFetchGo] at h
  | cons m rest ih =>
    intro c h
    cases hid : m.id with
    | none =>
      rw [gptFetchGo, hid] at h
      obtain ⟨m2, hm2, hrest⟩ := ih c h
      exact ⟨m2, List.mem_cons_of_mem m hm2, hrest⟩
    | some a =>
      rw [gptFetchGo, hid] at h
      by_cases hsk : gptSkip (some s) m = true
      · rw [if_pos hsk] at h
        obtain ⟨m2, hm2, hrest⟩ := ih c h
        exact ⟨m2, List.mem_cons_of_mem m hm2, hrest⟩
      · rw [if_neg hsk] at h
        cases hcode : m.code with
        | none =>
          rw [hcode] at h
          obtain ⟨m2, hm2, hrest⟩ := ih c h
          exact ⟨m2, List.mem_cons_of_mem m hm2, hrest⟩
        | some c2 =>
          rw [hcode] at h
          obtain rfl : c2 = c := by injection h
          exact ⟨m, List.mem_cons_self m rest,
            hcode, gptSkip_false_fresh s hs m (Bool.eq_false_iff.mpr hsk)⟩

theorem moeFetchGo_sound (s : Int) (hs : s ≠ 0) :
    ∀ (l : List MoeMsg) (c : String), moeFetchGo (some s) l = some c →
      ∃ m ∈ l, m.code = some c ∧ ∀ t, m.sentAt = some t → s ≤ t := by
  intro l
  induction l with
  | nil => intro c h; simp [moeFetchGo] at h
  | cons m rest ih =>
    intro c h
    cases hid : m.id with
    | none =>
      rw [moeFetchGo, hid] at h
      obtain ⟨m2, hm2, hrest⟩ := ih c h
      exact ⟨m2, List.mem_cons_of_mem m hm2, hrest⟩
    | some a =>
      rw [moeFetchGo, hid] at h
      by_cases hsk : moeSkip (some s) m = true
      · rw [if_pos hsk] at h
        obtain ⟨m2, hm2, hrest⟩ := ih c h
        exact ⟨m2, List.mem_cons_of_mem m hm2, hrest⟩
      · rw [if_neg hsk] at h
        cases hcode : m.code with
        | none =>
          rw [hcode] at h
          obtain ⟨m2, hm2, hrest⟩ := ih c h
          exact ⟨m2, List.mem_cons_of_mem m hm2, hrest⟩
        | some c2 =>
          rw [hcode] at h
          obtain rfl : c2 = c := by injection h
          exact ⟨m, List.mem_cons_self m rest,
            hcode, moeSkip_false_fresh s hs m (Bool.eq_false_iff.mpr hsk)⟩

/-- C3 (counterexample): with a sinceTimestamp whose integer conversion is
0 (the Unix epoch), a code extracted from a message with timestamp
strictly below it IS returned, in both clients: line 137 of
gptmail_client.py and line 144 of moemail_client.py test `since_ts` /
`since_ms` for truthiness, so the value 0 disables the stale filter. -/
theorem fetch_stale_counterexample :
    gptmail_fetch_verification_code (some 0)
      [{ id := some "m1", timestamp := some (-1), code := some "123456" }] =
        some "123456" ∧
    ((-1 : Int) < 0) ∧
    moemail_fetch_verification_code (some 0)
      [{ id := some "m1", sentAt := some (-1), code := some "654321" }] =
        some "654321" :=
  ⟨rfl, by decide, rfl⟩

/-- C3 (amended): for every call of fetch_verification_code with a
sinceTimestamp whose integer conversion is nonzero, a verification code
extracted from a message whose (integer) timestamp is strictly below
sinceTimestamp is never returned, in both the GPTMail and the MoeMail
client: any returned code comes from one of the 10 most recent messages
whose timestamp, when it carries one, is at least sinceTimestamp. -/
theorem fetch_never_returns_stale_nonzero (s : Int) (hs : s ≠ 0) :
    (∀ (emails : List GptMsg) (c : String),
        gptmail_fetch_verification_code (some s) emails = some c →
        ∃ m ∈ emails.take 10, m.code = some c ∧
          ∀ t, m.timestamp = some t → s ≤ t) ∧
    (∀ (messages : List MoeMsg) (c : String),
        moemail_fetch_verification_code (some s) messages = some c →
        ∃ m ∈ messages.take 10, m.code = some c ∧
          ∀ t, m.sentAt = some t → s ≤ t) := by
  constructor
  · intro emails c h
    rw [gptmail_fetch_verification_code] at h
    by_cases he : emails.isEmpty
    · rw [if_pos he] at h; cases h
    · rw [if_neg he] at h
      exact gptFetchGo_sound s hs _ c h
  · intro messages c h
    rw [moemail_fetch_verification_code] at h
    by_cases he : messages.isEmpty
    · rw [if_pos he] at h; cases h
    · rw [if_neg he] at h
      exact moeFetchGo_sound s hs _ c h

/-- Witness for C3 at sinceTimestamp 5 and a fresh message. -/
theorem fetch_never_returns_stale_nonzero_witness :
    (5 : Int) ≠ 0 ∧
    ∃ m ∈ ([{ id := some "a", timestamp := some 7, code := some "77" }] :
        List GptMsg).take 10,
      m.code = some "77" ∧ ∀ t, m.timestamp = some t → (5 : Int) ≤ t :=
  ⟨by decide,
   (fetch_never_returns_stale_nonzero 5 (by decide)).1
     [{ id := some "a", timestamp := some 7, code := some "77" }] "77" rfl⟩

theorem resendGo_trace_len (clickOk : Nat → Bool) (pollSince : Nat → Nat → Option String)
    (times : Nat → Nat) :
    ∀ n a, (resendGo clickOk pollSince times n a).2.length ≤ n := by
  intro n
  induction n with
  | zero => intro a; simp [resendGo]
  | succ n ih =>
    intro a
    rw [resendGo]
    by_cases hc : clickOk a
    · rw [if_pos hc]
      cases hp : pollSince a (times a) with
      | some c => simp
      | none =>
        have := ih (a + 1)
        simp
        omega
    · rw [if_neg hc]
      simp

theorem resendGo_trace_times (clickOk : Nat → Bool) (pollSince : Nat → Nat → Option String)
    (times : Nat → Nat) :
    ∀ n a, (resendGo clickOk pollSince times n a).2 =
      (List.range' a (resendGo clickOk pollSince times n a).2.length).map times := by
  intro n
  induction n with
  | zero => intro a; simp [resendGo]
  | succ n ih =>
    intro a
    rw [resendGo]
    by_cases hc : clickOk a
    · rw [if_pos hc]
      cases hp : pollSince a (times a) with
      | some c => simp [List.range']
      | none =>
        simp only [List.length_cons, List.range', List.map_cons, List.cons.injEq,
          true_and, eq_self_iff_true]
        exact ih (a + 1)
    · rw [if_neg hc]
      simp [List.range']

theorem resendGo_exhaust (clickOk : Nat → Bool) (pollSince : Nat → Nat → Option String)
    (times : Nat → Nat) :
    ∀ n a, (∀ i, a ≤ i → i < a + n → clickOk i = true ∧ pollSince i (times i) = none) →
      resendGo clickOk pollSince times n a =
        (VerifyOutcome.timeoutAfterResend, (List.range' a n).map times) := by
  intro n
  induction n with
  | zero => intro a _; simp [resendGo, List.range']
  | succ n ih =>
    intro a h
    rw [resendGo]
    rw [if_pos (h a (le_refl _) (by omega)).1]
    rw [(h a (le_refl _) (by omega)).2]
    rw [ih (a + 1) (fun i h1 h2 => h i (by omega) (by omega))]
    simp [List.range']

theorem resendGo_first_code (clickOk : Nat → Bool) (pollSince : Nat → Nat → Option String)
    (times : Nat → Nat) :
    ∀ j n a c, j < n →
      (∀ i, a ≤ i → i < a + j → clickOk i = true ∧ pollSince i (times i) = none) →
      clickOk (a + j) = true → pollSince (a + j) (times (a + j)) = some c →
      resendGo clickOk pollSince times n a =
        (VerifyOutcome.code c, (List.range' a (j + 1)).map times) := by
  intro j
  induction j with
  | zero =>
    intro n a c hjn h hck hp
    obtain ⟨n', rfl⟩ : ∃ n', n = n' + 1 := ⟨n - 1, by omega⟩
    rw [resendGo]
    rw [if_pos (show clickOk a = true by simpa using hck)]
    rw [show pollSince a (times a) = some c by simpa using hp]
    simp [List.range']
  | succ j ih =>
    intro n a c hjn h hck hp
    obtain ⟨n', rfl⟩ : ∃ n', n = n' + 1 := ⟨n - 1, by omega⟩
    rw [resendGo]
    rw [if_pos (h a (le_refl _) (by omega)).1]
    rw [(h a (le_refl _) (by omega)).2]
    rw [ih n' (a + 1) c (by omega) (fun i h1 h2 => h i (by omega) (by omega))
        (by rw [show a + 1 + j = a + (j + 1) from by omega]; exact hck)
        (by rw [show a + 1 + j = a + (j + 1) from by omega]; exact hp)]
    simp [List.range']

/-- C7: when the first verification poll yields no code and the resend
budget is positive, the flow performs at most `budget` extra cycles whose
sinceTimestamps are exactly the successive current times `times 0, times
1, ...` captured at each cycle; if every cycle's resend click succeeds and
its poll yields nothing the attempt ends with the timeout-after-resend
failure after exactly `budget` cycles; the first cycle whose poll yields a
code stops the loop with that code; and a successful first poll performs
no extra cycle at all. -/
theorem resend_escalation_spec (clickOk : Nat → Bool)
    (pollSince : Nat → Nat → Option String) (times : Nat → Nat) (budget : Nat)
    (hb : 1 ≤ budget) :
    ((verificationPollStep none clickOk pollSince times budget).2.length ≤ budget) ∧
    ((verificationPollStep none clickOk pollSince times budget).2 =
      (List.range' 0
        (verificationPollStep none clickOk pollSince times budget).2.length).map times) ∧
    ((∀ i, i < budget → clickOk i = true ∧ pollSince i (times i) = none) →
      verificationPollStep none clickOk pollSince times budget =
        (VerifyOutcome.timeoutAfterResend, (List.range' 0 budget).map times)) ∧
    (∀ j c, j < budget →
      (∀ i, i < j → clickOk i = true ∧ pollSince i (times i) = none) →
      clickOk j = true → pollSince j (times j) = some c →
      verificationPollStep none clickOk pollSince times budget =
        (VerifyOutcome.code c, (List.range' 0 (j + 1)).map times)) ∧
    (∀ c, verificationPollStep (some c) clickOk pollSince times budget =
      (VerifyOutcome.code c, [])) := by
  have hstep : verificationPollStep none clickOk pollSince times budget =
      resendGo clickOk pollSince times budget 0 := by
    simp only [verificationPollStep]
    rw [if_neg (by omega)]
  refine ⟨?_, ?_, ?_, ?_, fun c => rfl⟩
  · rw [hstep]; exact resendGo_trace_len clickOk pollSince times budget 0
  · rw [hstep]; exact resendGo_trace_times clickOk pollSince times budget 0
  · intro h
    rw [hstep]
    exact resendGo_exhaust clickOk pollSince times budget 0 (fun i h1 h2 => h i (by omega))
  · intro j c hj h hck hp
    rw [hstep]
    exact resendGo_first_code clickOk pollSince times j budget 0 c hj
      (fun i h1 h2 => h i (by omega))
      (by simpa using hck) (by simpa using hp)

/-- Witness for C7: budget 2, first extra cycle polls nothing, second
yields a code. -/
theorem resend_escalation_spec_witness :
    verificationPollStep none (fun _ => true)
        (fun j _ => if j = 0 then none else some "C") (fun i => 100 + i) 2 =
      (VerifyOutcome.code "C", (List.range' 0 (1 + 1)).map (fun i => 100 + i)) :=
  (resend_escalation_spec (fun _ => true)
      (fun j _ => if j = 0 then none else some "C") (fun i => 100 + i) 2
      (by decide)).2.2.2.1 1 "C" (by decide)
    (fun i h => by
      obtain rfl : i = 0 := by omega
      exact ⟨rfl, rfl⟩)
    rfl rfl

theorem pollGo_succ_found (f : Nat → Option String) (n i : Nat) (c : String)
    (h : f i = some c) : pollGo f (n + 1) i = (some c, 1, 0) := by
  cases n with
  | zero => rw [pollGo, h]
  | succ n' => rw [pollGo, h]

theorem pollGo_succ_last (f : Nat → Option String) (i : Nat) (h : f i = none) :
    pollGo f 1 i = (none, 1, 0) := by
  rw [pollGo, h]

theorem pollGo_succ_more (f : Nat → Option String) (n i : Nat) (h : f i = none) :
    pollGo f (n + 1 + 1) i =
      ((pollGo f (n + 1) (i + 1)).1, (pollGo f (n + 1) (i + 1)).2.1 + 1,
        (pollGo f (n + 1) (i + 1)).2.2 + 1) := by
  rw [pollGo, h]

theorem pollGo_fetch_bounds (f : Nat → Option String) :
    ∀ n i, n ≠ 0 → 1 ≤ (pollGo f n i).2.1 ∧ (pollGo f n i).2.1 ≤ n := by
  intro n
  induction n with
  | zero => intro i h; exact absurd rfl h
  | succ n ih =>
    intro i _
    cases hp : f i with
    | some c =>
      rw [pollGo_succ_found f n i c hp]
      exact ⟨le_refl 1, by show 1 ≤ n + 1; omega⟩
    | none =>
      cases n with
      | zero =>
        rw [pollGo_succ_last f i hp]
        exact ⟨le_refl 1, le_refl 1⟩
      | succ n' =>
        rw [pollGo_succ_more f n' i hp]
        have hih := ih (i + 1) (by omega)
        constructor
        · show 1 ≤ (pollGo f (n' + 1) (i + 1)).2.1 + 1
          omega
        · show (pollGo f (n' + 1) (i + 1)).2.1 + 1 ≤ n' + 1 + 1
          omega

theorem pollGo_sleeps (f : Nat → Option String) :
    ∀ n i, (pollGo f n i).2.2 = (pollGo f n i).2.1 - 1 := by
  intro n
  induction n with
  | zero => intro i; rfl
  | succ n ih =>
    intro i
    cases hp : f i with
    | some c =>
      rw [pollGo_succ_found f n i c hp]
      rfl
    | none =>
      cases n with
      | zero =>
        rw [pollGo_succ_last f i hp]
        rfl
      | succ n' =>
        rw [pollGo_succ_more f n' i hp]
        show (pollGo f (n' + 1) (i + 1)).2.2 + 1 =
          (pollGo f (n' + 1) (i + 1)).2.1 + 1 - 1
        have h1 := pollGo_fetch_bounds f (n' + 1) (i + 1) (by omega)
        have h2 := ih (i + 1)
        omega

theorem pollGo_none (f : Nat → Option String) :
    ∀ n i, (pollGo f n i).1 = none →
      (∀ j, i ≤ j → j < i + n → f j = none) ∧
      (n ≠ 0 → (pollGo f n i).2.1 = n) := by
  intro n
  induction n with
  | zero =>
    intro i _
    exact ⟨fun j h1 h2 => absurd h2 (by omega), fun h => absurd rfl h⟩
  | succ n ih =>
    intro i h
    cases hp : f i with
    | some c =>
      rw [pollGo_succ_found f n i c hp] at h
      cases h
    | none =>
      cases n with
      | zero =>
        refine ⟨fun j h1 h2 => ?_, fun _ => by rw [pollGo_succ_last f i hp]⟩
        obtain rfl : j = i := by omega
        exact hp
      | succ n' =>
        rw [pollGo_succ_more f n' i hp] at h
        have h2 : (pollGo f (n' + 1) (i + 1)).1 = none := h
        obtain ⟨hall, hcnt⟩ := ih (i + 1) h2
        refine ⟨fun j h1 hj => ?_, fun _ => ?_⟩
        · by_cases hji : j = i
          · subst hji; exact hp
          · exact hall j (by omega) (by omega)
        · rw [pollGo_succ_more f n' i hp]
          show (pollGo f (n' + 1) (i + 1)).2.1 + 1 = n' + 1 + 1
          rw [hcnt (by omega)]

theorem pollGo_some (f : Nat → Option String) :
    ∀ n i c, (pollGo f n i).1 = some c →
      ∃ j, i ≤ j ∧ j < i + n ∧ f j = some c ∧
        (pollGo f n i).2.1 = j - i + 1 ∧
        ∀ j2, i ≤ j2 → j2 < j → f j2 = none := by
  intro n
  induction n with
  | zero => intro i c h; cases h
  | succ n ih =>
    intro i c h
    cases hp : f i with
    | some c2 =>
      rw [pollGo_succ_found f n i c2 hp] at h
      have hc : c2 = c := by simpa using h
      subst hc
      refine ⟨i, le_refl _, by omega, hp, ?_, fun j2 h1 h2 => absurd h2 (by omega)⟩
      rw [pollGo_succ_found f n i c2 hp]
      show 1 = i - i + 1
      omega
    | none =>
      cases n with
      | zero =>
        rw [pollGo_succ_last f i hp] at h
        cases h
      | succ n' =>
        rw [pollGo_succ_more f n' i hp] at h
        have h2 : (pollGo f (n' + 1) (i + 1)).1 = some c := h
        obtain ⟨j, hj1, hj2, hjc, hjcnt, hjnone⟩ := ih (i + 1) c h2
        refine ⟨j, by omega, by omega, hjc, ?_, fun j2 ha hb => ?_⟩
        · rw [pollGo_succ_more f n' i hp]
          show (pollGo f (n' + 1) (i + 1)).2.1 + 1 = j - i + 1
          omega
        · by_cases hji : j2 = i
          · subst hji; exact hp
          · exact hjnone j2 (by omega) hb

theorem gptmail_fetch_take10 (sinceTs : Option Int) (emails : List GptMsg) :
    gptmail_fetch_verification_code sinceTs emails =
      gptmail_fetch_verification_code sinceTs (emails.take 10) := by
  cases emails with
  | nil => rfl
  | cons m rest => simp [gptmail_fetch_verification_code, List.take_take]

theorem moemail_fetch_take10 (sinceMs : Option Int) (messages : List MoeMsg) :
    moemail_fetch_verification_code sinceMs messages =
      moemail_fetch_verification_code sinceMs (messages.take 10) := by
  cases messages with
  | nil => rfl
  | cons m rest => simp [moemail_fetch_verification_code, List.take_take]

/-- C8: for every timeout and every interval at least 1, poll_for_code
performs at most `max 1 (timeout / interval)` fetch cycles, sleeps exactly
once between consecutive cycles and never after the last (sleep count =
fetch count - 1), returns the code of the first fetch that yields one
(with exactly that many fetches performed), returns none exactly when
every cycle's fetch yields none — having then used the full cycle budget —
and each fetch inspects at most the 10 most recent messages (its result is
unchanged when the mailbox is truncated to 10 messages), in both
clients. -/
theorem poll_for_code_spec (fetchAt : Nat → Option String) (timeout interval : Nat)
    (_hint : 1 ≤ interval) :
    ((poll_for_code fetchAt timeout interval).2.1 ≤ max 1 (timeout / interval)) ∧
    ((poll_for_code fetchAt timeout interval).2.2 =
      (poll_for_code fetchAt timeout interval).2.1 - 1) ∧
    ((poll_for_code fetchAt timeout interval).1 = none →
      (∀ j, 1 ≤ j → j ≤ max 1 (timeout / interval) → fetchAt j = none) ∧
      (poll_for_code fetchAt timeout interval).2.1 = max 1 (timeout / interval)) ∧
    (∀ c, (poll_for_code fetchAt timeout interval).1 = some c →
      ∃ j, 1 ≤ j ∧ j ≤ max 1 (timeout / interval) ∧ fetchAt j = some c ∧
        (poll_for_code fetchAt timeout interval).2.1 = j ∧
        ∀ j2, 1 ≤ j2 → j2 < j → fetchAt j2 = none) ∧
    (∀ (sinceTs : Option Int) (emails : List GptMsg),
      gptmail_fetch_verification_code sinceTs emails =
        gptmail_fetch_verification_code sinceTs (emails.take 10)) ∧
    (∀ (sinceMs : Option Int) (messages : List MoeMsg),
      moemail_fetch_verification_code sinceMs messages =
        moemail_fetch_verification_code sinceMs (messages.take 10)) := by
  have hne : max 1 (timeout / interval) ≠ 0 :=
    Nat.one_le_iff_ne_zero.mp (le_max_left 1 (timeout / interval))
  simp only [poll_for_code]
  refine ⟨?_, ?_, ?_, ?_, gptmail_fetch_take10, moemail_fetch_take10⟩
  · exact (pollGo_fetch_bounds fetchAt (max 1 (timeout / interval)) 1 hne).2
  · exact pollGo_sleeps fetchAt (max 1 (timeout / interval)) 1
  · intro h
    obtain ⟨hall, hcnt⟩ := pollGo_none fetchAt (max 1 (timeout / interval)) 1 h
    exact ⟨fun j h1 h2 => hall j h1 (Nat.lt_one_add_iff.mpr h2), hcnt hne⟩
  · intro c h
    obtain ⟨j, hj1, hj2, hjc, hjcnt, hjnone⟩ :=
      pollGo_some fetchAt (max 1 (timeout / interval)) 1 c h
    exact ⟨j, hj1, Nat.lt_one_add_iff.mp hj2, hjc, by omega,
      fun j2 ha hb => hjnone j2 ha hb⟩

/-- Witness for C8: timeout 8, interval 4, a code arriving in cycle 2. -/
theorem poll_for_code_spec_witness :
    (poll_for_code (fun i => if i = 2 then some "42" else none) 8 4).2.1 ≤
      max 1 (8 / 4) :=
  (poll_for_code_spec (fun i => if i = 2 then some "42" else none) 8 4 (by decide)).1
